import Mathlib

/-!
A shallow embedding of the whitespace-normalization engine of
`whitespace_format.py` (the `format_file_content` function and its helper
classifiers), together with theorems settling the frozen claims about it.
Python strings are modelled as `List Char`; slicing `s[:k]` becomes
`List.take k`, concatenation becomes `(· ++ ·)`.  The mutable local
variables of the single-pass scan are collected in an explicit `ScanState`
record threaded through the recursion.
-/

namespace WhitespaceFormat

/-- The whitespace characters recognised by the formatter
(`WHITESPACE_CHARACTERS` in the source): carriage return, line feed,
space, tab, vertical tab (`\x0B`), form feed (`\x0C`). -/
def WHITESPACE_CHARACTERS : List Char := ['\r', '\n', ' ', '\t', '\x0B', '\x0C']

/-- `is_whitespace_only` from the source: `True` iff every character of the
text is a whitespace character (vacuously true for the empty text). -/
def is_whitespace_only (text : List Char) : Bool :=
  text.all (fun c => WHITESPACE_CHARACTERS.contains c)

/-- `ChangeType` enumeration from the source. -/
inductive ChangeType where
  | ADDED_NEW_LINE_MARKER_TO_END_OF_FILE
  | REMOVED_NEW_LINE_MARKER_FROM_END_OF_FILE
  | REPLACED_NEW_LINE_MARKER
  | REMOVED_TRAILING_WHITESPACE
  | REMOVED_EMPTY_LINES
  | REPLACED_EMPTY_FILE_WITH_ONE_LINE
  | REPLACED_WHITESPACE_ONLY_FILE_WITH_EMPTY_FILE
  | REPLACED_WHITESPACE_ONLY_FILE_WITH_ONE_LINE
  | REPLACED_TAB_WITH_SPACES
  | REMOVED_TAB
  | REPLACED_NONSTANDARD_WHITESPACE
  | REMOVED_NONSTANDARD_WHITESPACE
deriving DecidableEq

/-- The `Change` dataclass from the source.  `changed_from` and
`changed_to` default to the empty string in the source; call sites that
omit them pass `[]` here explicitly. -/
structure Change where
  change_type : ChangeType
  line_number : Nat
  changed_from : List Char
  changed_to : List Char
deriving DecidableEq

/-- The fields of the parsed command line arguments consumed by
`format_file_content`.  Enumeration-valued options are kept as strings,
exactly as the source compares them. -/
structure Args where
  new_line_marker : String
  normalize_empty_files : String
  normalize_whitespace_only_files : String
  normalize_new_line_markers : Bool
  normalize_non_standard_whitespace : String
  add_new_line_marker_at_end_of_file : Bool
  remove_new_line_marker_from_end_of_file : Bool
  remove_trailing_whitespace : Bool
  remove_trailing_empty_lines : Bool
  replace_tabs_with_spaces : Int
deriving DecidableEq

/-- Counts of the three end-of-line markers in a text, in the order
(linux `\n`, mac `\r`, windows `\r\n`), following the scanning loop of
`find_most_common_new_line_marker`: a `\r` immediately followed by `\n`
counts as one Windows marker and both characters are consumed. -/
def countNewLineMarkers : List Char → Nat × Nat × Nat
  | [] => (0, 0, 0)
  | '\r' :: '\n' :: rest =>
      let (l, m, w) := countNewLineMarkers rest
      (l, m, w + 1)
  | '\r' :: rest =>
      let (l, m, w) := countNewLineMarkers rest
      (l, m + 1, w)
  | '\n' :: rest =>
      let (l, m, w) := countNewLineMarkers rest
      (l + 1, m, w)
  | _ :: rest => countNewLineMarkers rest

/-- `find_most_common_new_line_marker` from the source: pick the dominant
marker from the counts; the final selection is by the source's exact
if-chain. -/
def find_most_common_new_line_marker (text : List Char) : List Char :=
  let (linux_count, mac_count, windows_count) := countNewLineMarkers text
  if mac_count > windows_count ∧ mac_count > linux_count then ['\r']
  else if windows_count > linux_count then ['\r', '\n']
  else ['\n']

/-- `NEW_LINE_MARKERS.get(parsed_arguments.new_line_marker, find_most_common_new_line_marker(file_content))`
from the head of `format_file_content`: an explicit `windows`/`linux`/`mac`
choice maps to its marker, any other value (in particular `auto`) falls
back to the dominant marker of the input. -/
def output_new_line_marker_of (args : Args) (file_content : List Char) : List Char :=
  if args.new_line_marker = "windows" then ['\r', '\n']
  else if args.new_line_marker = "linux" then ['\n']
  else if args.new_line_marker = "mac" then ['\r']
  else find_most_common_new_line_marker file_content

/-- The mutable local variables of the main scan of `format_file_content`,
collected in one record.  Field names follow the source variables. -/
structure ScanState where
  line_number : Nat
  last_end_of_line_including_eol_marker : Nat
  last_non_whitespace : Nat
  last_end_of_non_empty_line_excluding_eol_marker : Nat
  last_end_of_non_empty_line_including_eol_marker : Nat
  last_non_empty_line_number : Nat
  output : List Char
  changes : List Change
deriving DecidableEq

/-- The initial scan state of `format_file_content`: line number 1, all
position trackers 0, empty output, no changes. -/
def initState : ScanState :=
  ⟨1, 0, 0, 0, 0, 0, [], []⟩

/-- Trailing-whitespace removal inside the end-of-line branch of the scan
loop: if enabled and the current line has trailing whitespace, truncate
the output back to the last non-whitespace position on the current line
(`max(last_non_whitespace, last_end_of_line_including_eol_marker)`) and
record a `REMOVED_TRAILING_WHITESPACE` change. -/
def eolRemoveTrailingWhitespace (args : Args) (s : ScanState) : ScanState :=
  if args.remove_trailing_whitespace
      ∧ max s.last_non_whitespace s.last_end_of_line_including_eol_marker
        < s.output.length then
    { s with
      changes := s.changes ++
        [⟨ChangeType.REMOVED_TRAILING_WHITESPACE, s.line_number, [], []⟩],
      output := s.output.take
        (max s.last_non_whitespace s.last_end_of_line_including_eol_marker) }
  else s

/-- Marker appending inside the end-of-line branch of the scan loop: if
normalization is enabled and the parsed marker differs from the target,
append the target and record a `REPLACED_NEW_LINE_MARKER` change,
otherwise append the parsed marker verbatim. -/
def eolAppendMarker (args : Args) (output_new_line_marker new_line_marker : List Char)
    (s1 : ScanState) : ScanState :=
  if args.normalize_new_line_markers ∧ output_new_line_marker ≠ new_line_marker then
    { s1 with
      changes := s1.changes ++
        [⟨ChangeType.REPLACED_NEW_LINE_MARKER, s1.line_number,
          new_line_marker, output_new_line_marker⟩],
      output := s1.output ++ output_new_line_marker }
  else { s1 with output := s1.output ++ new_line_marker }

/-- The end-of-line-marker branch of the scan loop of
`format_file_content`: optionally truncate trailing whitespace of the
current line, decide whether the finished line is empty, append the
(possibly normalized) marker, and advance the boundary trackers and the
line number.  `new_line_marker` is the marker just parsed from the
input.  The truncation does not touch `line_number` or
`last_end_of_line_including_eol_marker`, so reading them from `s1`
matches the source's local variables. -/
def processEndOfLine (args : Args) (output_new_line_marker : List Char)
    (new_line_marker : List Char) (s : ScanState) : ScanState :=
  let s1 := eolRemoveTrailingWhitespace args s
  let is_empty_line : Prop :=
    s1.last_end_of_line_including_eol_marker = s1.output.length
  let last_end_of_line_excluding_eol_marker := s1.output.length
  let s2 := eolAppendMarker args output_new_line_marker new_line_marker s1
  let s3 : ScanState :=
    { s2 with last_end_of_line_including_eol_marker := s2.output.length }
  let s4 : ScanState :=
    if is_empty_line then s3
    else
      { s3 with
        last_end_of_non_empty_line_excluding_eol_marker :=
          last_end_of_line_excluding_eol_marker,
        last_end_of_non_empty_line_including_eol_marker :=
          s3.last_end_of_line_including_eol_marker,
        last_non_empty_line_number := s3.line_number }
  { s4 with line_number := s4.line_number + 1 }

/-- The tab branch of the scan loop: negative width copies the tab
through, positive width `n` emits `n` spaces and a
`REPLACED_TAB_WITH_SPACES` change, zero drops the tab and records
`REMOVED_TAB`.  Note that the source constructs the
`REPLACED_TAB_WITH_SPACES` change without `changed_from`/`changed_to`
arguments, so both default to the empty string. -/
def processTab (args : Args) (s : ScanState) : ScanState :=
  if args.replace_tabs_with_spaces < 0 then
    { s with output := s.output ++ ['\t'] }
  else if args.replace_tabs_with_spaces > 0 then
    { s with
      changes := s.changes ++
        [⟨ChangeType.REPLACED_TAB_WITH_SPACES, s.line_number, [], []⟩],
      output := s.output ++ List.replicate args.replace_tabs_with_spaces.toNat ' ' }
  else
    { s with
      changes := s.changes ++ [⟨ChangeType.REMOVED_TAB, s.line_number, [], []⟩] }

/-- The vertical-tab / form-feed branch of the scan loop, pure variant.
The source raises `ValueError` when `normalize_non_standard_whitespace`
is none of `ignore`/`replace`/`remove`; that raising branch is modelled
separately by `processNonStandardWhitespaceExc` (and proved unreachable
for well-formed options); here the state is returned unchanged in that
case. -/
def processNonStandardWhitespace (args : Args) (c : Char) (s : ScanState) : ScanState :=
  if args.normalize_non_standard_whitespace = "ignore" then
    { s with output := s.output ++ [c] }
  else if args.normalize_non_standard_whitespace = "replace" then
    { s with
      output := s.output ++ [' '],
      changes := s.changes ++
        [⟨ChangeType.REPLACED_NONSTANDARD_WHITESPACE, s.line_number, [c], [' ']⟩] }
  else if args.normalize_non_standard_whitespace = "remove" then
    { s with
      changes := s.changes ++
        [⟨ChangeType.REMOVED_NONSTANDARD_WHITESPACE, s.line_number, [c], []⟩] }
  else s

/-- The vertical-tab / form-feed branch with the source's raising branch
made explicit as an `Except.error`. -/
def processNonStandardWhitespaceExc (args : Args) (c : Char) (s : ScanState) :
    Except String ScanState :=
  if args.normalize_non_standard_whitespace = "ignore" then
    Except.ok { s with output := s.output ++ [c] }
  else if args.normalize_non_standard_whitespace = "replace" then
    Except.ok
      { s with
        output := s.output ++ [' '],
        changes := s.changes ++
          [⟨ChangeType.REPLACED_NONSTANDARD_WHITESPACE, s.line_number, [c], [' ']⟩] }
  else if args.normalize_non_standard_whitespace = "remove" then
    Except.ok
      { s with
        changes := s.changes ++
          [⟨ChangeType.REMOVED_NONSTANDARD_WHITESPACE, s.line_number, [c], []⟩] }
  else Except.error "Unknown value of normalize_non_standard_whitespace"

/-- The space branch (copy through) of the scan loop. -/
def processSpace (s : ScanState) : ScanState :=
  { s with output := s.output ++ [' '] }

/-- The default branch of the scan loop: copy the character through and
advance `last_non_whitespace` past it. -/
def processRegular (c : Char) (s : ScanState) : ScanState :=
  { s with
    output := s.output ++ [c],
    last_non_whitespace := s.output.length + 1 }

/-- The main `while` loop of `format_file_content` over the remaining
input.  A `\n` is a Linux marker; a `\r` immediately followed by `\n` is
a Windows marker consuming both characters; a lone `\r` is a Mac
marker. -/
def scanAux (args : Args) (output_new_line_marker : List Char) :
    List Char → ScanState → ScanState
  | [], s => s
  | '\n' :: rest, s =>
      scanAux args output_new_line_marker rest
        (processEndOfLine args output_new_line_marker ['\n'] s)
  | '\r' :: '\n' :: rest, s =>
      scanAux args output_new_line_marker rest
        (processEndOfLine args output_new_line_marker ['\r', '\n'] s)
  | '\r' :: rest, s =>
      scanAux args output_new_line_marker rest
        (processEndOfLine args output_new_line_marker ['\r'] s)
  | ' ' :: rest, s =>
      scanAux args output_new_line_marker rest (processSpace s)
  | '\t' :: rest, s =>
      scanAux args output_new_line_marker rest (processTab args s)
  | '\x0B' :: rest, s =>
      scanAux args output_new_line_marker rest
        (processNonStandardWhitespace args '\x0B' s)
  | '\x0C' :: rest, s =>
      scanAux args output_new_line_marker rest
        (processNonStandardWhitespace args '\x0C' s)
  | c :: rest, s =>
      scanAux args output_new_line_marker rest (processRegular c s)

/-- The main scan loop with the source's raising branch made explicit. -/
def scanAuxExc (args : Args) (output_new_line_marker : List Char) :
    List Char → ScanState → Except String ScanState
  | [], s => Except.ok s
  | '\n' :: rest, s =>
      scanAuxExc args output_new_line_marker rest
        (processEndOfLine args output_new_line_marker ['\n'] s)
  | '\r' :: '\n' :: rest, s =>
      scanAuxExc args output_new_line_marker rest
        (processEndOfLine args output_new_line_marker ['\r', '\n'] s)
  | '\r' :: rest, s =>
      scanAuxExc args output_new_line_marker rest
        (processEndOfLine args output_new_line_marker ['\r'] s)
  | ' ' :: rest, s =>
      scanAuxExc args output_new_line_marker rest (processSpace s)
  | '\t' :: rest, s =>
      scanAuxExc args output_new_line_marker rest (processTab args s)
  | '\x0B' :: rest, s =>
      match processNonStandardWhitespaceExc args '\x0B' s with
      | Except.error e => Except.error e
      | Except.ok s' => scanAuxExc args output_new_line_marker rest s'
  | '\x0C' :: rest, s =>
      match processNonStandardWhitespaceExc args '\x0C' s with
      | Except.error e => Except.error e
      | Except.ok s' => scanAuxExc args output_new_line_marker rest s'
  | c :: rest, s =>
      scanAuxExc args output_new_line_marker rest (processRegular c s)

/-- Post-scan finalization step 1 of `format_file_content`: remove
trailing whitespace from the (marker-less) last line. -/
def postRemoveTrailingWhitespace (args : Args) (s : ScanState) : ScanState :=
  if args.remove_trailing_whitespace
      ∧ s.last_end_of_line_including_eol_marker < s.output.length
      ∧ s.last_non_whitespace < s.output.length then
    { s with
      changes := s.changes ++
        [⟨ChangeType.REMOVED_TRAILING_WHITESPACE, s.line_number, [], []⟩],
      output := s.output.take s.last_non_whitespace }
  else s

/-- Post-scan finalization step 2 of `format_file_content`: remove
trailing empty lines. -/
def postRemoveTrailingEmptyLines (args : Args) (s : ScanState) : ScanState :=
  if args.remove_trailing_empty_lines
      ∧ s.last_end_of_line_including_eol_marker = s.output.length
      ∧ s.last_end_of_non_empty_line_including_eol_marker < s.output.length then
    { s with
      line_number := s.last_non_empty_line_number + 1,
      last_end_of_line_including_eol_marker :=
        s.last_end_of_non_empty_line_including_eol_marker,
      changes := s.changes ++
        [⟨ChangeType.REMOVED_EMPTY_LINES, s.last_non_empty_line_number + 1, [], []⟩],
      output := s.output.take s.last_end_of_non_empty_line_including_eol_marker }
  else s

/-- Post-scan finalization step 3 of `format_file_content`: add a new
line marker at the end of the file. -/
def postAddMarker (args : Args) (output_new_line_marker : List Char)
    (s : ScanState) : ScanState :=
  if args.add_new_line_marker_at_end_of_file
      ∧ s.last_end_of_line_including_eol_marker < s.output.length then
    { s with
      changes := s.changes ++
        [⟨ChangeType.ADDED_NEW_LINE_MARKER_TO_END_OF_FILE, s.line_number, [], []⟩],
      output := s.output ++ output_new_line_marker,
      last_end_of_line_including_eol_marker :=
        (s.output ++ output_new_line_marker).length,
      line_number := s.line_number + 1 }
  else s

/-- Post-scan finalization step 4 of `format_file_content`: remove the
new line marker(s) from the end of the file. -/
def postRemoveMarker (args : Args) (s : ScanState) : ScanState :=
  if args.remove_new_line_marker_from_end_of_file
      ∧ s.last_end_of_line_including_eol_marker = s.output.length
      ∧ s.line_number ≥ 2 then
    { s with
      line_number := s.last_non_empty_line_number,
      changes := s.changes ++
        [⟨ChangeType.REMOVED_NEW_LINE_MARKER_FROM_END_OF_FILE,
          s.last_non_empty_line_number, [], []⟩],
      output := s.output.take s.last_end_of_non_empty_line_excluding_eol_marker }
  else s

/-- The four post-scan finalization steps of `format_file_content`, in
the source's order, returning the final output and change list. -/
def postScan (args : Args) (output_new_line_marker : List Char) (s : ScanState) :
    List Char × List Change :=
  let s4 :=
    postRemoveMarker args
      (postAddMarker args output_new_line_marker
        (postRemoveTrailingEmptyLines args
          (postRemoveTrailingWhitespace args s)))
  (s4.output, s4.changes)

/-- `format_file_content` from the source: the empty-file and
whitespace-only-file dispatch followed by the main scan and the
post-scan finalization.  The sequential early `return`s of the source
are rendered as an if-chain preserving the fall-through behaviour. -/
def format_file_content (file_content : List Char) (args : Args) :
    List Char × List Change :=
  let output_new_line_marker := output_new_line_marker_of args file_content
  if file_content = []
      ∧ (args.normalize_empty_files = "ignore" ∨ args.normalize_empty_files = "empty") then
    ([], [])
  else if file_content = [] ∧ args.normalize_empty_files = "one-line" then
    (output_new_line_marker,
      [⟨ChangeType.REPLACED_EMPTY_FILE_WITH_ONE_LINE, 1, [], []⟩])
  else if is_whitespace_only file_content
      ∧ args.normalize_whitespace_only_files = "empty" then
    ([], [⟨ChangeType.REPLACED_WHITESPACE_ONLY_FILE_WITH_EMPTY_FILE, 1, [], []⟩])
  else if is_whitespace_only file_content
      ∧ args.normalize_whitespace_only_files = "one-line" then
    (if file_content = output_new_line_marker then (file_content, [])
     else
       (output_new_line_marker,
         [⟨ChangeType.REPLACED_WHITESPACE_ONLY_FILE_WITH_ONE_LINE, 1, [], []⟩]))
  else if is_whitespace_only file_content
      ∧ args.normalize_whitespace_only_files = "ignore" then
    (file_content, [])
  else
    postScan args output_new_line_marker
      (scanAux args output_new_line_marker file_content initState)

/-- `format_file_content` with the source's raising branch made explicit:
returns `Except.error` exactly when the scan reaches the `raise
ValueError` of the vertical-tab / form-feed branch. -/
def format_file_content_exc (file_content : List Char) (args : Args) :
    Except String (List Char × List Change) :=
  let output_new_line_marker := output_new_line_marker_of args file_content
  if file_content = []
      ∧ (args.normalize_empty_files = "ignore" ∨ args.normalize_empty_files = "empty") then
    Except.ok ([], [])
  else if file_content = [] ∧ args.normalize_empty_files = "one-line" then
    Except.ok
      (output_new_line_marker,
        [⟨ChangeType.REPLACED_EMPTY_FILE_WITH_ONE_LINE, 1, [], []⟩])
  else if is_whitespace_only file_content
      ∧ args.normalize_whitespace_only_files = "empty" then
    Except.ok
      ([], [⟨ChangeType.REPLACED_WHITESPACE_ONLY_FILE_WITH_EMPTY_FILE, 1, [], []⟩])
  else if is_whitespace_only file_content
      ∧ args.normalize_whitespace_only_files = "one-line" then
    Except.ok
      (if file_content = output_new_line_marker then (file_content, [])
       else
         (output_new_line_marker,
           [⟨ChangeType.REPLACED_WHITESPACE_ONLY_FILE_WITH_ONE_LINE, 1, [], []⟩]))
  else if is_whitespace_only file_content
      ∧ args.normalize_whitespace_only_files = "ignore" then
    Except.ok (file_content, [])
  else
    match scanAuxExc args output_new_line_marker file_content initState with
    | Except.error e => Except.error e
    | Except.ok s => Except.ok (postScan args output_new_line_marker s)

/-- Well-formed options in the sense of the command line layer: all
enumeration-valued options carry one of their admissible values, and the
two end-of-file marker options are not both set. -/
def WellFormedArgs (args : Args) : Prop :=
  (args.new_line_marker = "auto" ∨ args.new_line_marker = "linux"
    ∨ args.new_line_marker = "mac" ∨ args.new_line_marker = "windows")
  ∧ (args.normalize_empty_files = "ignore" ∨ args.normalize_empty_files = "empty"
    ∨ args.normalize_empty_files = "one-line")
  ∧ (args.normalize_whitespace_only_files = "ignore"
    ∨ args.normalize_whitespace_only_files = "empty"
    ∨ args.normalize_whitespace_only_files = "one-line")
  ∧ (args.normalize_non_standard_whitespace = "ignore"
    ∨ args.normalize_non_standard_whitespace = "remove"
    ∨ args.normalize_non_standard_whitespace = "replace")
  ∧ ¬(args.add_new_line_marker_at_end_of_file = true
    ∧ args.remove_new_line_marker_from_end_of_file = true)

instance (args : Args) : Decidable (WellFormedArgs args) := by
  unfold WellFormedArgs; infer_instance

/-- Options with every transform at its no-op default (CLI defaults):
`auto` marker, `ignore` policies, all flags off, tab width `-1`. -/
def noOpArgs : Args :=
  ⟨"auto", "ignore", "ignore", false, "ignore", false, false, false, false, -1⟩

/-- The options of the combined scenario: linux target marker, marker
normalization, non-standard whitespace replacement, trailing whitespace
and trailing empty line removal, marker added at end of file. -/
def combinedScenarioArgs : Args :=
  ⟨"linux", "ignore", "ignore", true, "replace", true, false, true, true, -1⟩

/-- Options enabling only trailing-whitespace removal. -/
def removeTrailingWhitespaceArgs : Args :=
  ⟨"auto", "ignore", "ignore", false, "ignore", false, false, true, false, -1⟩

/-- Options enabling trailing-whitespace removal together with adding a
new line marker at the end of the file. -/
def rtwAddMarkerArgs : Args :=
  ⟨"auto", "ignore", "ignore", false, "ignore", true, false, true, false, -1⟩

/-- Options enabling only tab replacement with three spaces. -/
def tabThreeSpacesArgs : Args :=
  ⟨"auto", "ignore", "ignore", false, "ignore", false, false, false, false, 3⟩

/-- Options enabling removal of the end-of-file marker together with
removal of trailing empty lines. -/
def removeMarkerAndEmptyLinesArgs : Args :=
  ⟨"auto", "ignore", "ignore", false, "ignore", false, true, false, true, -1⟩

/-- Options enabling only removal of the end-of-file marker. -/
def removeMarkerArgs : Args :=
  ⟨"auto", "ignore", "ignore", false, "ignore", false, true, false, false, -1⟩

/-- Options with the whitespace-only-file policy set to `one-line`. -/
def whitespaceOneLineArgs : Args :=
  ⟨"auto", "ignore", "one-line", false, "ignore", false, false, false, false, -1⟩

/-- The changes a scan step appends are all attributed to the current
line, they are mutually ordered, and if the step appended no change then
its output is the input characters it consumed, copied verbatim. -/
def StepSpec (s s' : ScanState) (consumed : List Char) : Prop :=
  ∃ d, s'.changes = s.changes ++ d
    ∧ (∀ ch ∈ d, ch.line_number = s.line_number)
    ∧ List.Pairwise (fun a b => a.line_number ≤ b.line_number) d
    ∧ (d = [] → s'.output = s.output ++ consumed)

/-- What the whole scan guarantees from a given start state: the line
number never decreases, the change list only grows at the end, the newly
appended changes are bracketed between the start and end line numbers and
mutually ordered, and a scan that appended no change copied the consumed
text verbatim. -/
def ScanSpec (s res : ScanState) (text : List Char) : Prop :=
  s.line_number ≤ res.line_number
  ∧ ∃ d, res.changes = s.changes ++ d
      ∧ (∀ ch ∈ d, s.line_number ≤ ch.line_number ∧ ch.line_number ≤ res.line_number)
      ∧ List.Pairwise (fun a b => a.line_number ≤ b.line_number) d
      ∧ (d = [] → res.output = s.output ++ text)

/-- What the no-op scan guarantees: the output is the input copied
verbatim, no changes are produced, the end-of-line tracker stays within
the output, and it stays strictly inside the output when the text ends
in a character that is not part of an end-of-line marker. -/
def NoopSpec (s res : ScanState) (text : List Char) : Prop :=
  res.output = s.output ++ text
  ∧ res.changes = s.changes
  ∧ (s.last_end_of_line_including_eol_marker ≤ s.output.length →
      res.last_end_of_line_including_eol_marker ≤ res.output.length)
  ∧ (∀ c, text.getLast? = some c → c ≠ '\r' → c ≠ '\n' →
      s.last_end_of_line_including_eol_marker ≤ s.output.length →
      res.last_end_of_line_including_eol_marker < res.output.length)

/-! ### Step-level facts about the scan -/



lemma stepSpec_processSpace (s : ScanState) : StepSpec s (processSpace s) [' '] :=
  ⟨[], by simp [processSpace], by simp, by simp, fun _ => rfl⟩

lemma stepSpec_processRegular (c : Char) (s : ScanState) :
    StepSpec s (processRegular c s) [c] :=
  ⟨[], by simp [processRegular], by simp, by simp, fun _ => rfl⟩

lemma stepSpec_processTab (args : Args) (s : ScanState) :
    StepSpec s (processTab args s) ['\t'] := by
  unfold StepSpec processTab
  split_ifs with h1 h2
  · exact ⟨[], by simp, by simp, by simp, fun _ => rfl⟩
  · exact ⟨[⟨ChangeType.REPLACED_TAB_WITH_SPACES, s.line_number, [], []⟩],
      rfl, by simp, by simp, by simp⟩
  · exact ⟨[⟨ChangeType.REMOVED_TAB, s.line_number, [], []⟩],
      rfl, by simp, by simp, by simp⟩

lemma stepSpec_processNonStandardWhitespace (args : Args) (c : Char) (s : ScanState)
    (hnsw : args.normalize_non_standard_whitespace = "ignore"
      ∨ args.normalize_non_standard_whitespace = "remove"
      ∨ args.normalize_non_standard_whitespace = "replace") :
    StepSpec s (processNonStandardWhitespace args c s) [c] := by
  unfold StepSpec processNonStandardWhitespace
  split_ifs with h1 h2 h3
  · exact ⟨[], by simp, by simp, by simp, fun _ => rfl⟩
  · exact ⟨[⟨ChangeType.REPLACED_NONSTANDARD_WHITESPACE, s.line_number, [c], [' ']⟩],
      rfl, by simp, by simp, by simp⟩
  · exact ⟨[⟨ChangeType.REMOVED_NONSTANDARD_WHITESPACE, s.line_number, [c], []⟩],
      rfl, by simp, by simp, by simp⟩
  · rcases hnsw with h | h | h <;> simp [h] at h1 h2 h3

lemma eolRemoveTrailingWhitespace_spec (args : Args) (s : ScanState) :
    ∃ d, (eolRemoveTrailingWhitespace args s).changes = s.changes ++ d
      ∧ (∀ ch ∈ d, ch.line_number = s.line_number)
      ∧ (eolRemoveTrailingWhitespace args s).line_number = s.line_number
      ∧ (d = [] → eolRemoveTrailingWhitespace args s = s) := by
  unfold eolRemoveTrailingWhitespace
  split_ifs with h
  · exact ⟨[⟨ChangeType.REMOVED_TRAILING_WHITESPACE, s.line_number, [], []⟩],
      rfl, by simp, rfl, by simp⟩
  · exact ⟨[], by simp, by simp, rfl, fun _ => rfl⟩

lemma eolAppendMarker_spec (args : Args) (m nl : List Char) (s : ScanState) :
    ∃ d, (eolAppendMarker args m nl s).changes = s.changes ++ d
      ∧ (∀ ch ∈ d, ch.line_number = s.line_number)
      ∧ (eolAppendMarker args m nl s).line_number = s.line_number
      ∧ (d = [] → (eolAppendMarker args m nl s).output = s.output ++ nl) := by
  unfold eolAppendMarker
  split_ifs with h
  · exact ⟨[⟨ChangeType.REPLACED_NEW_LINE_MARKER, s.line_number, nl, m⟩],
      rfl, by simp, rfl, by simp⟩
  · exact ⟨[], by simp, by simp, rfl, fun _ => rfl⟩

lemma processEndOfLine_proj (args : Args) (m nl : List Char) (s : ScanState) :
    (processEndOfLine args m nl s).changes
        = (eolAppendMarker args m nl (eolRemoveTrailingWhitespace args s)).changes
      ∧ (processEndOfLine args m nl s).output
        = (eolAppendMarker args m nl (eolRemoveTrailingWhitespace args s)).output
      ∧ (processEndOfLine args m nl s).line_number
        = (eolAppendMarker args m nl (eolRemoveTrailingWhitespace args s)).line_number + 1 := by
  unfold processEndOfLine
  dsimp only
  split <;> exact ⟨rfl, rfl, rfl⟩

lemma processEndOfLine_line (args : Args) (m nl : List Char) (s : ScanState) :
    (processEndOfLine args m nl s).line_number = s.line_number + 1 := by
  obtain ⟨-, -, h3⟩ := processEndOfLine_proj args m nl s
  obtain ⟨d1, -, -, h1, -⟩ := eolRemoveTrailingWhitespace_spec args s
  obtain ⟨d2, -, -, h2, -⟩ := eolAppendMarker_spec args m nl (eolRemoveTrailingWhitespace args s)
  omega

lemma stepSpec_processEndOfLine (args : Args) (m nl : List Char) (s : ScanState) :
    StepSpec s (processEndOfLine args m nl s) nl := by
  obtain ⟨hc, ho, -⟩ := processEndOfLine_proj args m nl s
  obtain ⟨d1, hc1, hl1, hn1, he1⟩ := eolRemoveTrailingWhitespace_spec args s
  obtain ⟨d2, hc2, hl2, hn2, he2⟩ :=
    eolAppendMarker_spec args m nl (eolRemoveTrailingWhitespace args s)
  refine ⟨d1 ++ d2, ?_, ?_, ?_, ?_⟩
  · rw [hc, hc2, hc1, List.append_assoc]
  · intro ch hch
    rcases List.mem_append.mp hch with h | h
    · exact hl1 ch h
    · rw [hl2 ch h, hn1]
  · refine List.pairwise_append.mpr ⟨?_, ?_, ?_⟩
    · exact List.pairwise_of_forall_mem_list fun a ha b hb => by
        rw [hl1 a ha, hl1 b hb]
    · exact List.pairwise_of_forall_mem_list fun a ha b hb => by
        rw [hl2 a ha, hl2 b hb]
    · intro a ha b hb
      rw [hl1 a ha, hl2 b hb, hn1]
  · intro hd
    rcases List.append_eq_nil.mp hd with ⟨hd1, hd2⟩
    rw [ho, he2 hd2, he1 hd1]

/-! ### Scan-level facts -/



lemma scanSpec_glue {s stepS res : ScanState} {consumed rest : List Char}
    (hstep : StepSpec s stepS consumed) (hline : s.line_number ≤ stepS.line_number)
    (ih : ScanSpec stepS res rest) : ScanSpec s res (consumed ++ rest) := by
  obtain ⟨d0, hc0, hl0, hp0, ho0⟩ := hstep
  obtain ⟨hln, d1, hc1, hl1, hp1, ho1⟩ := ih
  refine ⟨le_trans hline hln, d0 ++ d1, ?_, ?_, ?_, ?_⟩
  · rw [hc1, hc0, List.append_assoc]
  · intro ch hch
    rcases List.mem_append.mp hch with h | h
    · exact ⟨le_of_eq (hl0 ch h).symm, le_trans (le_of_eq (hl0 ch h)) (le_trans hline hln)⟩
    · exact ⟨le_trans hline (hl1 ch h).1, (hl1 ch h).2⟩
  · refine List.pairwise_append.mpr ⟨hp0, hp1, ?_⟩
    intro a ha b hb
    rw [hl0 a ha]
    exact le_trans hline (hl1 b hb).1
  · intro hd
    rcases List.append_eq_nil.mp hd with ⟨hd0, hd1⟩
    rw [ho1 hd1, ho0 hd0, List.append_assoc]

lemma scanAux_cons_cr (args : Args) (m : List Char) (rest : List Char) (s : ScanState)
    (hne : ∀ rs, rest = '\n' :: rs → False) :
    scanAux args m ('\r' :: rest) s
      = scanAux args m rest (processEndOfLine args m ['\r'] s) := by
  cases rest with
  | nil => rfl
  | cons r rs =>
      have hr : r ≠ '\n' := fun h => hne rs (by rw [h])
      rw [scanAux.eq_def]
      simp [hr]

lemma scanAux_cons_regular (args : Args) (m : List Char) (c : Char) (rest : List Char)
    (s : ScanState) (h1 : c ≠ '\n') (h2 : c ≠ '\r') (h3 : c ≠ ' ') (h4 : c ≠ '\t')
    (h5 : c ≠ '\x0B') (h6 : c ≠ '\x0C') :
    scanAux args m (c :: rest) s = scanAux args m rest (processRegular c s) := by
  rw [scanAux.eq_def]
  simp [h1, h2, h3, h4, h5, h6]

lemma scanAux_spec (args : Args) (m : List Char)
    (hnsw : args.normalize_non_standard_whitespace = "ignore"
      ∨ args.normalize_non_standard_whitespace = "remove"
      ∨ args.normalize_non_standard_whitespace = "replace") :
    ∀ (text : List Char) (s : ScanState), ScanSpec s (scanAux args m text s) text := by
  intro text s
  induction text, s using scanAux.induct args m with
  | case1 s =>
      exact ⟨le_refl _, [], by simp [scanAux], by simp, by simp, fun _ => by simp [scanAux]⟩
  | case2 rest s ih =>
      rw [show scanAux args m ('\n' :: rest) s
          = scanAux args m rest (processEndOfLine args m ['\n'] s) from by rw [scanAux]]
      exact scanSpec_glue (stepSpec_processEndOfLine args m ['\n'] s)
        (by rw [processEndOfLine_line]; omega) ih
  | case3 rest s ih =>
      rw [show scanAux args m ('\r' :: '\n' :: rest) s
          = scanAux args m rest (processEndOfLine args m ['\r', '\n'] s) from by rw [scanAux]]
      exact scanSpec_glue (stepSpec_processEndOfLine args m ['\r', '\n'] s)
        (by rw [processEndOfLine_line]; omega) ih
  | case4 rest s hne ih =>
      rw [scanAux_cons_cr args m rest s hne]
      exact scanSpec_glue (stepSpec_processEndOfLine args m ['\r'] s)
        (by rw [processEndOfLine_line]; omega) ih
  | case5 rest s ih =>
      rw [show scanAux args m (' ' :: rest) s
          = scanAux args m rest (processSpace s) from by rw [scanAux]]
      exact scanSpec_glue (stepSpec_processSpace s) (le_refl _) ih
  | case6 rest s ih =>
      rw [show scanAux args m ('\t' :: rest) s
          = scanAux args m rest (processTab args s) from by rw [scanAux]]
      refine scanSpec_glue (stepSpec_processTab args s) ?_ ih
      unfold processTab
      split_ifs <;> exact le_refl _
  | case7 rest s ih =>
      rw [show scanAux args m ('\x0B' :: rest) s
          = scanAux args m rest (processNonStandardWhitespace args '\x0B' s) from by
            rw [scanAux]]
      refine scanSpec_glue (stepSpec_processNonStandardWhitespace args '\x0B' s hnsw) ?_ ih
      unfold processNonStandardWhitespace
      split_ifs <;> exact le_refl _
  | case8 rest s ih =>
      rw [show scanAux args m ('\x0C' :: rest) s
          = scanAux args m rest (processNonStandardWhitespace args '\x0C' s) from by
            rw [scanAux]]
      refine scanSpec_glue (stepSpec_processNonStandardWhitespace args '\x0C' s hnsw) ?_ ih
      unfold processNonStandardWhitespace
      split_ifs <;> exact le_refl _
  | case9 c rest s h1 h2 h3 h4 h5 h6 h7 ih =>
      rw [scanAux_cons_regular args m c rest s
        (fun h => h1 h) (fun h => h3 h) (fun h => h4 h)
        (fun h => h5 h) (fun h => h6 h) (fun h => h7 h)]
      exact scanSpec_glue (stepSpec_processRegular c s) (le_refl _) ih

/-! ### Post-scan facts -/

lemma postRemoveTrailingWhitespace_spec (args : Args) (s : ScanState) :
    ∃ d, (postRemoveTrailingWhitespace args s).changes = s.changes ++ d
      ∧ (∀ ch ∈ d, ch.line_number = s.line_number)
      ∧ (postRemoveTrailingWhitespace args s).line_number = s.line_number
      ∧ (d = [] → postRemoveTrailingWhitespace args s = s) := by
  unfold postRemoveTrailingWhitespace
  split_ifs with h
  · exact ⟨[⟨ChangeType.REMOVED_TRAILING_WHITESPACE, s.line_number, [], []⟩],
      rfl, by simp, rfl, by simp⟩
  · exact ⟨[], by simp, by simp, rfl, fun _ => rfl⟩

lemma postRemoveTrailingEmptyLines_spec (args : Args) (s : ScanState) :
    ∃ d, (postRemoveTrailingEmptyLines args s).changes = s.changes ++ d
      ∧ (d = [] → postRemoveTrailingEmptyLines args s = s) := by
  unfold postRemoveTrailingEmptyLines
  split_ifs with h
  · exact ⟨[⟨ChangeType.REMOVED_EMPTY_LINES, s.last_non_empty_line_number + 1, [], []⟩],
      rfl, by simp⟩
  · exact ⟨[], by simp, fun _ => rfl⟩

lemma postAddMarker_spec (args : Args) (m : List Char) (s : ScanState) :
    ∃ d, (postAddMarker args m s).changes = s.changes ++ d
      ∧ (∀ ch ∈ d, ch.line_number = s.line_number)
      ∧ s.line_number ≤ (postAddMarker args m s).line_number
      ∧ (d = [] → postAddMarker args m s = s) := by
  unfold postAddMarker
  split_ifs with h
  · exact ⟨[⟨ChangeType.ADDED_NEW_LINE_MARKER_TO_END_OF_FILE, s.line_number, [], []⟩],
      rfl, by simp, by simp, by simp⟩
  · exact ⟨[], by simp, by simp, le_refl _, fun _ => rfl⟩

lemma postRemoveMarker_spec (args : Args) (s : ScanState) :
    ∃ d, (postRemoveMarker args s).changes = s.changes ++ d
      ∧ (d = [] → postRemoveMarker args s = s) := by
  unfold postRemoveMarker
  split_ifs with h
  · exact ⟨[⟨ChangeType.REMOVED_NEW_LINE_MARKER_FROM_END_OF_FILE,
      s.last_non_empty_line_number, [], []⟩], rfl, by simp⟩
  · exact ⟨[], by simp, fun _ => rfl⟩

/-- If the finalization appended no change, it left the buffer alone. -/
lemma postScan_changes_eq (args : Args) (m : List Char) (s : ScanState)
    (h : (postScan args m s).2 = s.changes) : (postScan args m s).1 = s.output := by
  obtain ⟨d1, hc1, -, -, he1⟩ := postRemoveTrailingWhitespace_spec args s
  obtain ⟨d2, hc2, he2⟩ :=
    postRemoveTrailingEmptyLines_spec args (postRemoveTrailingWhitespace args s)
  obtain ⟨d3, hc3, -, -, he3⟩ := postAddMarker_spec args m
    (postRemoveTrailingEmptyLines args (postRemoveTrailingWhitespace args s))
  obtain ⟨d4, hc4, he4⟩ := postRemoveMarker_spec args
    (postAddMarker args m
      (postRemoveTrailingEmptyLines args (postRemoveTrailingWhitespace args s)))
  unfold postScan at h ⊢
  dsimp only at h ⊢
  rw [hc4, hc3, hc2, hc1] at h
  have hlen := congrArg List.length h
  simp [List.length_append] at hlen
  obtain ⟨h1, h2, h3, h4⟩ := hlen
  rw [he4 h4, he3 h3, he2 h2, he1 h1]

/-! ### The scan under no-op options copies its input verbatim -/

lemma eolRemoveTrailingWhitespace_noop (args : Args) (s : ScanState)
    (h : args.remove_trailing_whitespace = false) :
    eolRemoveTrailingWhitespace args s = s := by
  simp [eolRemoveTrailingWhitespace, h]

lemma eolAppendMarker_noop (args : Args) (m nl : List Char) (s : ScanState)
    (h : args.normalize_new_line_markers = false) :
    eolAppendMarker args m nl s = { s with output := s.output ++ nl } := by
  simp [eolAppendMarker, h]

lemma processEndOfLine_proj_leoi (args : Args) (m nl : List Char) (s : ScanState) :
    (processEndOfLine args m nl s).last_end_of_line_including_eol_marker
      = (eolAppendMarker args m nl (eolRemoveTrailingWhitespace args s)).output.length := by
  unfold processEndOfLine
  dsimp only
  split <;> rfl

lemma processEndOfLine_noop (args : Args) (m nl : List Char) (s : ScanState)
    (h1 : args.remove_trailing_whitespace = false)
    (h2 : args.normalize_new_line_markers = false) :
    (processEndOfLine args m nl s).output = s.output ++ nl
      ∧ (processEndOfLine args m nl s).changes = s.changes
      ∧ (processEndOfLine args m nl s).last_end_of_line_including_eol_marker
        = (s.output ++ nl).length := by
  obtain ⟨hc, ho, -⟩ := processEndOfLine_proj args m nl s
  have hleoi := processEndOfLine_proj_leoi args m nl s
  rw [eolRemoveTrailingWhitespace_noop args s h1, eolAppendMarker_noop args m nl s h2]
    at hc ho hleoi
  exact ⟨ho, hc, hleoi⟩

lemma processTab_noop (args : Args) (s : ScanState)
    (h : args.replace_tabs_with_spaces < 0) :
    processTab args s = { s with output := s.output ++ ['\t'] } := by
  simp [processTab, h]

lemma processNonStandardWhitespace_noop (args : Args) (c : Char) (s : ScanState)
    (h : args.normalize_non_standard_whitespace = "ignore") :
    processNonStandardWhitespace args c s = { s with output := s.output ++ [c] } := by
  simp [processNonStandardWhitespace, h]



lemma noopSpec_glue_simple (stepS : ScanState) {s res : ScanState} {ch : Char}
    {rest : List Char}
    (hso : stepS.output = s.output ++ [ch]) (hsc : stepS.changes = s.changes)
    (hsl : stepS.last_end_of_line_including_eol_marker
      = s.last_end_of_line_including_eol_marker)
    (hnil : rest = [] → res = stepS)
    (ih : NoopSpec stepS res rest) : NoopSpec s res (ch :: rest) := by
  obtain ⟨io, ic, il, ilt⟩ := ih
  refine ⟨?_, ?_, ?_, ?_⟩
  · rw [io, hso, List.append_assoc, List.singleton_append]
  · rw [ic, hsc]
  · intro hle
    refine il ?_
    rw [hsl, hso, List.length_append]
    omega
  · intro c hc hcr hcn hle
    cases rest with
    | nil =>
        rw [hnil rfl, hsl, hso, List.length_append]
        simp only [List.getLast?_singleton, Option.some_inj] at hc
        simp
        omega
    | cons r rs =>
        rw [List.getLast?_cons_cons] at hc
        refine ilt c hc hcr hcn ?_
        rw [hsl, hso, List.length_append]
        omega

lemma noopSpec_glue_eol (stepS : ScanState) {s res : ScanState} {nl rest : List Char}
    (hso : stepS.output = s.output ++ nl) (hsc : stepS.changes = s.changes)
    (hsl : stepS.last_end_of_line_including_eol_marker = stepS.output.length)
    (hlast : nl.getLast? = some '\n' ∨ nl.getLast? = some '\r')
    (hnil : rest = [] → res = stepS)
    (ih : NoopSpec stepS res rest) : NoopSpec s res (nl ++ rest) := by
  obtain ⟨io, ic, il, ilt⟩ := ih
  refine ⟨?_, ?_, ?_, ?_⟩
  · rw [io, hso, List.append_assoc]
  · rw [ic, hsc]
  · intro hle
    exact il (le_of_eq hsl)
  · intro c hc hcr hcn hle
    cases rest with
    | nil =>
        rw [List.append_nil] at hc
        rcases hlast with h | h <;> rw [h, Option.some_inj] at hc
        · exact absurd hc.symm hcn
        · exact absurd hc.symm hcr
    | cons r rs =>
        rw [List.getLast?_append_of_ne_nil nl (by simp)] at hc
        exact ilt c hc hcr hcn (le_of_eq hsl)

lemma scanAux_noop (args : Args) (m : List Char)
    (h1 : args.normalize_new_line_markers = false)
    (h2 : args.normalize_non_standard_whitespace = "ignore")
    (h3 : args.remove_trailing_whitespace = false)
    (h4 : args.replace_tabs_with_spaces < 0) :
    ∀ (text : List Char) (s : ScanState), NoopSpec s (scanAux args m text s) text := by
  intro text s
  induction text, s using scanAux.induct args m with
  | case1 s =>
      refine ⟨by simp [scanAux], by simp [scanAux], fun h => h, ?_⟩
      intro c hc
      simp at hc
  | case2 rest s ih =>
      obtain ⟨ho, hc, hl⟩ := processEndOfLine_noop args m ['\n'] s h3 h1
      rw [show scanAux args m ('\n' :: rest) s
          = scanAux args m rest (processEndOfLine args m ['\n'] s) from by rw [scanAux]]
      exact noopSpec_glue_eol _ ho hc (by rw [hl, ho]) (Or.inl (by simp))
        (fun h => by rw [h, scanAux]) ih
  | case3 rest s ih =>
      obtain ⟨ho, hc, hl⟩ := processEndOfLine_noop args m ['\r', '\n'] s h3 h1
      rw [show scanAux args m ('\r' :: '\n' :: rest) s
          = scanAux args m rest (processEndOfLine args m ['\r', '\n'] s) from by
            rw [scanAux]]
      exact noopSpec_glue_eol _ ho hc (by rw [hl, ho]) (Or.inl (by simp))
        (fun h => by rw [h, scanAux]) ih
  | case4 rest s hne ih =>
      obtain ⟨ho, hc, hl⟩ := processEndOfLine_noop args m ['\r'] s h3 h1
      rw [scanAux_cons_cr args m rest s hne]
      exact noopSpec_glue_eol _ ho hc (by rw [hl, ho]) (Or.inr (by simp))
        (fun h => by rw [h, scanAux]) ih
  | case5 rest s ih =>
      rw [show scanAux args m (' ' :: rest) s
          = scanAux args m rest (processSpace s) from by rw [scanAux]]
      exact noopSpec_glue_simple (processSpace s) rfl rfl rfl
        (fun h => by rw [h, scanAux]) ih
  | case6 rest s ih =>
      rw [show scanAux args m ('\t' :: rest) s
          = scanAux args m rest (processTab args s) from by rw [scanAux]]
      rw [processTab_noop args s h4] at ih ⊢
      exact noopSpec_glue_simple { s with output := s.output ++ ['\t'] } rfl rfl rfl
        (fun h => by rw [h, scanAux]) ih
  | case7 rest s ih =>
      rw [show scanAux args m ('\x0B' :: rest) s
          = scanAux args m rest (processNonStandardWhitespace args '\x0B' s) from by
            rw [scanAux]]
      rw [processNonStandardWhitespace_noop args '\x0B' s h2] at ih ⊢
      exact noopSpec_glue_simple { s with output := s.output ++ ['\x0B'] } rfl rfl rfl
        (fun h => by rw [h, scanAux]) ih
  | case8 rest s ih =>
      rw [show scanAux args m ('\x0C' :: rest) s
          = scanAux args m rest (processNonStandardWhitespace args '\x0C' s) from by
            rw [scanAux]]
      rw [processNonStandardWhitespace_noop args '\x0C' s h2] at ih ⊢
      exact noopSpec_glue_simple { s with output := s.output ++ ['\x0C'] } rfl rfl rfl
        (fun h => by rw [h, scanAux]) ih
  | case9 c rest s hn1 hn2 hn3 hn4 hn5 hn6 hn7 ih =>
      rw [scanAux_cons_regular args m c rest s
        (fun h => hn1 h) (fun h => hn3 h) (fun h => hn4 h)
        (fun h => hn5 h) (fun h => hn6 h) (fun h => hn7 h)]
      exact noopSpec_glue_simple (processRegular c s) rfl rfl rfl
        (fun h => by rw [h, scanAux]) ih

/-! ### The raising branch is unreachable for well-formed options -/

lemma processNonStandardWhitespaceExc_eq (args : Args) (c : Char) (s : ScanState)
    (hnsw : args.normalize_non_standard_whitespace = "ignore"
      ∨ args.normalize_non_standard_whitespace = "remove"
      ∨ args.normalize_non_standard_whitespace = "replace") :
    processNonStandardWhitespaceExc args c s
      = Except.ok (processNonStandardWhitespace args c s) := by
  rcases hnsw with h | h | h <;>
    simp [processNonStandardWhitespaceExc, processNonStandardWhitespace, h]

lemma scanAuxExc_cons_cr (args : Args) (m : List Char) (rest : List Char) (s : ScanState)
    (hne : ∀ rs, rest = '\n' :: rs → False) :
    scanAuxExc args m ('\r' :: rest) s
      = scanAuxExc args m rest (processEndOfLine args m ['\r'] s) := by
  cases rest with
  | nil => rfl
  | cons r rs =>
      have hr : r ≠ '\n' := fun h => hne rs (by rw [h])
      rw [scanAuxExc.eq_def]
      simp [hr]

lemma scanAuxExc_cons_regular (args : Args) (m : List Char) (c : Char) (rest : List Char)
    (s : ScanState) (h1 : c ≠ '\n') (h2 : c ≠ '\r') (h3 : c ≠ ' ') (h4 : c ≠ '\t')
    (h5 : c ≠ '\x0B') (h6 : c ≠ '\x0C') :
    scanAuxExc args m (c :: rest) s = scanAuxExc args m rest (processRegular c s) := by
  rw [scanAuxExc.eq_def]
  simp [h1, h2, h3, h4, h5, h6]

lemma scanAuxExc_eq (args : Args) (m : List Char)
    (hnsw : args.normalize_non_standard_whitespace = "ignore"
      ∨ args.normalize_non_standard_whitespace = "remove"
      ∨ args.normalize_non_standard_whitespace = "replace") :
    ∀ (text : List Char) (s : ScanState),
      scanAuxExc args m text s = Except.ok (scanAux args m text s) := by
  intro text s
  induction text, s using scanAux.induct args m with
  | case1 s => rw [scanAux, scanAuxExc]
  | case2 rest s ih => rw [scanAux, scanAuxExc, ih]
  | case3 rest s ih => rw [scanAux, scanAuxExc, ih]
  | case4 rest s hne ih =>
      rw [scanAux_cons_cr args m rest s hne, scanAuxExc_cons_cr args m rest s hne, ih]
  | case5 rest s ih => rw [scanAux, scanAuxExc, ih]
  | case6 rest s ih => rw [scanAux, scanAuxExc, ih]
  | case7 rest s ih =>
      rw [scanAux, scanAuxExc, processNonStandardWhitespaceExc_eq args '\x0B' s hnsw]
      exact ih
  | case8 rest s ih =>
      rw [scanAux, scanAuxExc, processNonStandardWhitespaceExc_eq args '\x0C' s hnsw]
      exact ih
  | case9 c rest s h1 h2 h3 h4 h5 h6 h7 ih =>
      rw [scanAux_cons_regular args m c rest s
          (fun h => h1 h) (fun h => h3 h) (fun h => h4 h)
          (fun h => h5 h) (fun h => h6 h) (fun h => h7 h),
        scanAuxExc_cons_regular args m c rest s
          (fun h => h1 h) (fun h => h3 h) (fun h => h4 h)
          (fun h => h5 h) (fun h => h6 h) (fun h => h7 h), ih]

/-! ### Dispatch facts -/

/-- On non-empty, non-whitespace-only input, `format_file_content` is the
main scan followed by the post-scan finalization. -/
lemma format_file_content_scan (text : List Char) (args : Args)
    (ht : text ≠ []) (hws : is_whitespace_only text = false) :
    format_file_content text args
      = postScan args (output_new_line_marker_of args text)
          (scanAux args (output_new_line_marker_of args text) text initState) := by
  unfold format_file_content
  dsimp only
  rw [if_neg (by rintro ⟨h, -⟩; exact ht h),
      if_neg (by rintro ⟨h, -⟩; exact ht h),
      if_neg (by rintro ⟨h, -⟩; rw [hws] at h; exact Bool.false_ne_true h),
      if_neg (by rintro ⟨h, -⟩; rw [hws] at h; exact Bool.false_ne_true h),
      if_neg (by rintro ⟨h, -⟩; rw [hws] at h; exact Bool.false_ne_true h)]

lemma postScan_changes_append (args : Args) (m : List Char) (s : ScanState) :
    ∃ D, (postScan args m s).2 = s.changes ++ D := by
  obtain ⟨d1, hc1, -, -, -⟩ := postRemoveTrailingWhitespace_spec args s
  obtain ⟨d2, hc2, -⟩ :=
    postRemoveTrailingEmptyLines_spec args (postRemoveTrailingWhitespace args s)
  obtain ⟨d3, hc3, -, -, -⟩ := postAddMarker_spec args m
    (postRemoveTrailingEmptyLines args (postRemoveTrailingWhitespace args s))
  obtain ⟨d4, hc4, -⟩ := postRemoveMarker_spec args
    (postAddMarker args m
      (postRemoveTrailingEmptyLines args (postRemoveTrailingWhitespace args s)))
  refine ⟨d1 ++ d2 ++ d3 ++ d4, ?_⟩
  unfold postScan
  dsimp only
  rw [hc4, hc3, hc2, hc1]
  simp [List.append_assoc]

/-! ### The claims -/

/-- C4: `find_most_common_new_line_marker` counts `\r\n` as Windows,
remaining `\n` as Linux, remaining `\r` as Mac, and returns the marker
with the strictly highest count, ties resolved Linux over Windows over
Mac; with no markers at all it returns `\n`; in particular
`"\r \n \r \n"` yields `\n` and `"\r\n\r\n"` yields `\r\n`. -/
theorem find_most_common_marker_selection :
    (∀ text : List Char,
      (((countNewLineMarkers text).2.2 ≤ (countNewLineMarkers text).1
          ∧ (countNewLineMarkers text).2.1 ≤ (countNewLineMarkers text).1) →
        find_most_common_new_line_marker text = ['\n'])
      ∧ (((countNewLineMarkers text).1 < (countNewLineMarkers text).2.2
          ∧ (countNewLineMarkers text).2.1 ≤ (countNewLineMarkers text).2.2) →
        find_most_common_new_line_marker text = ['\r', '\n'])
      ∧ (((countNewLineMarkers text).1 < (countNewLineMarkers text).2.1
          ∧ (countNewLineMarkers text).2.2 < (countNewLineMarkers text).2.1) →
        find_most_common_new_line_marker text = ['\r']))
    ∧ find_most_common_new_line_marker [] = ['\n']
    ∧ find_most_common_new_line_marker ("\r \n \r \n".toList) = ['\n']
    ∧ find_most_common_new_line_marker ("\r\n\r\n".toList) = ['\r', '\n'] := by
  refine ⟨fun text => ?_, by decide, by decide, by decide⟩
  unfold find_most_common_new_line_marker
  rcases h : countNewLineMarkers text with ⟨l, m, w⟩
  dsimp only
  refine ⟨fun hc => ?_, fun hc => ?_, fun hc => ?_⟩ <;>
    · simp only [Prod.fst, Prod.snd] at hc ⊢
      split_ifs with h1 h2 <;> first | rfl | (exfalso; omega)

/-- C4 witness: the selection theorem applied to the concrete text
`"x\n"`, whose only marker is a Linux one. -/
theorem find_most_common_marker_selection_witness :
    find_most_common_new_line_marker ("x\n".toList) = ['\n'] :=
  (find_most_common_marker_selection.1 ("x\n".toList)).1 (by decide)

/-- C5: on a non-empty, non-whitespace-only input whose final character
is not part of any end-of-line marker, with all per-character transforms
at no-op values, enabling only `remove_new_line_marker_from_end_of_file`
returns the input unchanged with no change recorded, while enabling only
`add_new_line_marker_at_end_of_file` appends exactly one target marker
and records exactly one `ADDED_NEW_LINE_MARKER_TO_END_OF_FILE` change. -/
theorem end_of_file_marker_boundary (text : List Char) (args : Args) (c : Char)
    (h1 : args.normalize_new_line_markers = false)
    (h2 : args.normalize_non_standard_whitespace = "ignore")
    (h3 : args.remove_trailing_whitespace = false)
    (h4 : args.replace_tabs_with_spaces < 0)
    (h5 : args.remove_trailing_empty_lines = false)
    (hws : is_whitespace_only text = false)
    (hlast : text.getLast? = some c) (hcr : c ≠ '\r') (hcn : c ≠ '\n') :
    (args.add_new_line_marker_at_end_of_file = false →
      args.remove_new_line_marker_from_end_of_file = true →
      format_file_content text args = (text, []))
    ∧ (args.add_new_line_marker_at_end_of_file = true →
      args.remove_new_line_marker_from_end_of_file = false →
      ∃ n, format_file_content text args
        = (text ++ output_new_line_marker_of args text,
            [⟨ChangeType.ADDED_NEW_LINE_MARKER_TO_END_OF_FILE, n, [], []⟩])) := by
  have ht : text ≠ [] := by
    intro h
    rw [h] at hlast
    simp at hlast
  have hmain := format_file_content_scan text args ht hws
  obtain ⟨ho, hc, -, hlt⟩ :=
    scanAux_noop args (output_new_line_marker_of args text) h1 h2 h3 h4 text initState
  have hlt' := hlt c hlast hcr hcn (by simp [initState])
  rw [show initState.output = [] from rfl, List.nil_append] at ho
  rw [show initState.changes = [] from rfl] at hc
  set S := scanAux args (output_new_line_marker_of args text) text initState with hS
  have hp1 : postRemoveTrailingWhitespace args S = S := by
    simp [postRemoveTrailingWhitespace, h3]
  have hp2 : postRemoveTrailingEmptyLines args S = S := by
    simp [postRemoveTrailingEmptyLines, h5]
  constructor
  · intro hadd hrem
    have hp3 : postAddMarker args (output_new_line_marker_of args text) S = S := by
      simp [postAddMarker, hadd]
    have hp4 : postRemoveMarker args S = S := by
      unfold postRemoveMarker
      rw [if_neg]
      rintro ⟨-, h, -⟩
      exact absurd h (ne_of_lt hlt')
    rw [hmain]
    unfold postScan
    dsimp only
    rw [hp1, hp2, hp3, hp4, ho, hc]
  · intro hadd hrem
    have hp4 : ∀ u, postRemoveMarker args u = u := fun u => by
      simp [postRemoveMarker, hrem]
    refine ⟨S.line_number, ?_⟩
    rw [hmain]
    unfold postScan
    dsimp only
    rw [hp1, hp2]
    unfold postAddMarker
    rw [if_pos ⟨hadd, hlt'⟩, hp4]
    dsimp only
    rw [ho, hc]
    simp

/-- C5 witness: the boundary theorem applied to the one-character text
`"a"`; with only the remove-marker option set the text is unchanged. -/
theorem end_of_file_marker_boundary_witness :
    format_file_content ("a".toList) removeMarkerArgs = ("a".toList, []) :=
  (end_of_file_marker_boundary ("a".toList) removeMarkerArgs 'a'
    rfl rfl rfl (by decide) rfl (by decide) (by decide) (by decide) (by decide)).1 rfl rfl

/-- C6: a non-empty whitespace-only input under the `one-line`
whitespace-only-file policy becomes the target marker with one
`REPLACED_WHITESPACE_ONLY_FILE_WITH_ONE_LINE` change at line 1, unless
it already equals the target marker, in which case it is returned
unchanged with no change recorded. -/
theorem whitespace_only_one_line_policy (text : List Char) (args : Args)
    (ht : text ≠ []) (hws : is_whitespace_only text = true)
    (hp : args.normalize_whitespace_only_files = "one-line") :
    format_file_content text args
      = if text = output_new_line_marker_of args text then (text, [])
        else (output_new_line_marker_of args text,
          [⟨ChangeType.REPLACED_WHITESPACE_ONLY_FILE_WITH_ONE_LINE, 1, [], []⟩]) := by
  unfold format_file_content
  dsimp only
  rw [if_neg (by rintro ⟨h, -⟩; exact ht h),
      if_neg (by rintro ⟨h, -⟩; exact ht h),
      if_neg (by rintro ⟨-, h⟩; rw [hp] at h; exact absurd h (by decide)),
      if_pos ⟨hws, hp⟩]

/-- C6 witness: the policy theorem applied to the single-space text,
whose target marker (no markers present) is `\n`. -/
theorem whitespace_only_one_line_policy_witness :
    format_file_content (" ".toList) whitespaceOneLineArgs
      = (['\n'], [⟨ChangeType.REPLACED_WHITESPACE_ONLY_FILE_WITH_ONE_LINE, 1, [], []⟩]) :=
  (whitespace_only_one_line_policy (" ".toList) whitespaceOneLineArgs
    (by decide) (by decide) rfl).trans (by decide)

/-- C1 counterexample: on the combined-scenario input the engine does
not produce the claimed nine changes; in particular no
`REPLACED_NEW_LINE_MARKER` change is recorded at line 2, because line
2's original marker is already the Linux target. -/
theorem combined_scenario_nine_changes_refuted :
    ¬ ((format_file_content ("\x0Bhello  \r\n\x0Cworld \t  \n\r\n\r".toList)
          combinedScenarioArgs).2.map (fun ch => (ch.change_type, ch.line_number))
      = [(ChangeType.REPLACED_NONSTANDARD_WHITESPACE, 1),
         (ChangeType.REMOVED_TRAILING_WHITESPACE, 1),
         (ChangeType.REPLACED_NEW_LINE_MARKER, 1),
         (ChangeType.REPLACED_NONSTANDARD_WHITESPACE, 2),
         (ChangeType.REMOVED_TRAILING_WHITESPACE, 2),
         (ChangeType.REPLACED_NEW_LINE_MARKER, 2),
         (ChangeType.REPLACED_NEW_LINE_MARKER, 3),
         (ChangeType.REPLACED_NEW_LINE_MARKER, 4),
         (ChangeType.REMOVED_EMPTY_LINES, 3)]) := by decide

/-- C1 amended: the combined scenario returns `" hello\n world\n"` with
exactly eight changes, in source order: non-standard whitespace replaced
at line 1, trailing whitespace removed at line 1, marker replaced at
line 1, non-standard whitespace replaced at line 2, trailing whitespace
removed at line 2, marker replaced at lines 3 and 4, and trailing empty
lines removed at line 3. -/
theorem combined_scenario_result :
    format_file_content ("\x0Bhello  \r\n\x0Cworld \t  \n\r\n\r".toList)
        combinedScenarioArgs
      = (" hello\n world\n".toList,
         [⟨ChangeType.REPLACED_NONSTANDARD_WHITESPACE, 1, ['\x0B'], [' ']⟩,
          ⟨ChangeType.REMOVED_TRAILING_WHITESPACE, 1, [], []⟩,
          ⟨ChangeType.REPLACED_NEW_LINE_MARKER, 1, ['\r', '\n'], ['\n']⟩,
          ⟨ChangeType.REPLACED_NONSTANDARD_WHITESPACE, 2, ['\x0C'], [' ']⟩,
          ⟨ChangeType.REMOVED_TRAILING_WHITESPACE, 2, [], []⟩,
          ⟨ChangeType.REPLACED_NEW_LINE_MARKER, 3, ['\r', '\n'], ['\n']⟩,
          ⟨ChangeType.REPLACED_NEW_LINE_MARKER, 4, ['\r'], ['\n']⟩,
          ⟨ChangeType.REMOVED_EMPTY_LINES, 3, [], []⟩]) := by decide

/-- C2: formatting is not idempotent.  On `"a\n "` with
trailing-whitespace removal and add-marker-at-end-of-file enabled, the
first pass truncates the output to `"a"` — deleting the final `\n`
marker but leaving the end-of-line tracker stale, so no marker is
added — and the second pass then adds a marker, producing a non-empty
change list. -/
theorem idempotence_fails_on_rtw_add_marker :
    format_file_content ("a\n ".toList) rtwAddMarkerArgs
        = ("a".toList, [⟨ChangeType.REMOVED_TRAILING_WHITESPACE, 2, [], []⟩])
    ∧ format_file_content
        (format_file_content ("a\n ".toList) rtwAddMarkerArgs).1 rtwAddMarkerArgs
        = ("a\n".toList,
           [⟨ChangeType.ADDED_NEW_LINE_MARKER_TO_END_OF_FILE, 1, [], []⟩]) := by
  exact ⟨by decide, by decide⟩

/-- C3: the post-scan trailing-whitespace truncation is not confined to
the final line: on `"abc\n   "` with trailing-whitespace removal the
engine truncates the output to `last_non_whitespace = 3`, deleting the
`\n` marker after `"abc"` together with the whitespace of line 2. -/
theorem post_scan_truncation_deletes_final_marker :
    format_file_content ("abc\n   ".toList) removeTrailingWhitespaceArgs
      = ("abc".toList, [⟨ChangeType.REMOVED_TRAILING_WHITESPACE, 2, [], []⟩]) := by
  decide

/-- C7: the `REPLACED_TAB_WITH_SPACES` change is constructed without
`changed_from`/`changed_to` arguments, so both are empty — not `"\t"`
and the replacement spaces as the repository's own test expects. -/
theorem tab_replacement_change_payload_empty :
    format_file_content ("\thello".toList) tabThreeSpacesArgs
      = ("   hello".toList,
         [⟨ChangeType.REPLACED_TAB_WITH_SPACES, 1, [], []⟩]) := by decide

/-- C8 counterexample: with trailing-empty-line removal and end-of-file
marker removal both enabled, the change list of `"hello   \n\r\n\r"` is
`REMOVED_EMPTY_LINES` at line 2 followed by
`REMOVED_NEW_LINE_MARKER_FROM_END_OF_FILE` at line 1 — a decreasing
line-number sequence. -/
theorem changes_not_ordered_counterexample :
    ¬ List.Pairwise (· ≤ ·)
      ((format_file_content ("hello   \n\r\n\r".toList)
          removeMarkerAndEmptyLinesArgs).2.map Change.line_number) := by decide

/-- C8 amended: for well-formed options with trailing-empty-line removal
and end-of-file marker removal disabled, the line numbers of the change
list returned by `format_file_content` are non-decreasing; those two
finalization steps are the only sources of out-of-order changes. -/
theorem changes_ordered_without_final_truncations (text : List Char) (args : Args)
    (hwf : WellFormedArgs args)
    (h1 : args.remove_trailing_empty_lines = false)
    (h2 : args.remove_new_line_marker_from_end_of_file = false) :
    List.Pairwise (· ≤ ·) ((format_file_content text args).2.map Change.line_number) := by
  have hnsw := hwf.2.2.2.1
  rw [List.pairwise_map]
  unfold format_file_content
  dsimp only
  split_ifs with c1 c2 c3 c4 c5 c6
  · simp
  · simp
  · simp
  · simp
  · simp
  · simp
  · obtain ⟨-, d, hd, hdb, hdp, -⟩ :=
      scanAux_spec args (output_new_line_marker_of args text) hnsw text initState
    set S := scanAux args (output_new_line_marker_of args text) text initState with hSdef
    have hd' : S.changes = d := by simpa [initState] using hd
    obtain ⟨e1, he1, hb1, hl1, -⟩ := postRemoveTrailingWhitespace_spec args S
    set s1 := postRemoveTrailingWhitespace args S with hs1def
    have hp2 : postRemoveTrailingEmptyLines args s1 = s1 := by
      simp [postRemoveTrailingEmptyLines, h1]
    obtain ⟨e3, he3, hb3, -, -⟩ := postAddMarker_spec args
      (output_new_line_marker_of args text) s1
    have hp4 : ∀ u, postRemoveMarker args u = u := fun u => by
      simp [postRemoveMarker, h2]
    unfold postScan
    dsimp only
    rw [hp2, hp4, he3, he1, hd']
    refine List.pairwise_append.mpr ⟨List.pairwise_append.mpr ⟨hdp, ?_, ?_⟩, ?_, ?_⟩
    · exact List.pairwise_of_forall_mem_list fun a ha b hb => by
        rw [hb1 a ha, hb1 b hb]
    · intro a ha b hb
      rw [hb1 b hb]
      exact (hdb a ha).2
    · exact List.pairwise_of_forall_mem_list fun a ha b hb => by
        rw [hb3 a ha, hb3 b hb]
    · intro a ha b hb
      rw [hb3 b hb, hl1]
      rcases List.mem_append.mp ha with h | h
      · exact (hdb a h).2
      · exact le_of_eq (hb1 a h)

/-- C8 witness: the ordering theorem applied to a two-line text with all
options at their no-op defaults. -/
theorem changes_ordered_witness :
    List.Pairwise (· ≤ ·)
      ((format_file_content ("a \nb".toList) noOpArgs).2.map Change.line_number) :=
  changes_ordered_without_final_truncations ("a \nb".toList) noOpArgs
    (by decide) rfl rfl

/-- C9: for well-formed options the engine never reaches the raising
branch: the variant of `format_file_content` with the source's `raise
ValueError` made explicit returns `Except.ok` of the pure result on
every input. -/
theorem format_file_content_total_no_raise (text : List Char) (args : Args)
    (hwf : WellFormedArgs args) :
    format_file_content_exc text args = Except.ok (format_file_content text args) := by
  have hnsw := hwf.2.2.2.1
  unfold format_file_content format_file_content_exc
  dsimp only
  split_ifs <;> try rfl
  rw [scanAuxExc_eq args (output_new_line_marker_of args text) hnsw text initState]

/-- C9 witness: the totality theorem applied to a text containing a
vertical tab, with the no-op options. -/
theorem format_file_content_total_witness :
    format_file_content_exc ("a\x0B\t x".toList) noOpArgs
      = Except.ok (format_file_content ("a\x0B\t x".toList) noOpArgs) :=
  format_file_content_total_no_raise ("a\x0B\t x".toList) noOpArgs (by decide)

/-- C10: with well-formed options, if `format_file_content` returns an
empty change list then the returned text is exactly the input: the
engine never modifies the text without recording a change. -/
theorem empty_changes_means_identity (text : List Char) (args : Args)
    (hwf : WellFormedArgs args)
    (hz : (format_file_content text args).2 = []) :
    (format_file_content text args).1 = text := by
  have hnsw := hwf.2.2.2.1
  unfold format_file_content at hz ⊢
  dsimp only at hz ⊢
  split_ifs at hz ⊢ with c1 c2 c3 c4 c5 c6
  all_goals try exact c1.1.symm
  all_goals try simp at hz
  all_goals try rfl
  case _ =>
    obtain ⟨D, hD⟩ := postScan_changes_append args (output_new_line_marker_of args text)
      (scanAux args (output_new_line_marker_of args text) text initState)
    set S := scanAux args (output_new_line_marker_of args text) text initState with hSdef
    have hSc : S.changes = [] := by
      have h0 : S.changes ++ D = [] := hD.symm.trans hz
      exact (List.append_eq_nil.mp h0).1
    have hout := postScan_changes_eq args (output_new_line_marker_of args text) S
      (by rw [hz, hSc])
    obtain ⟨-, d, hd, -, -, hod⟩ :=
      scanAux_spec args (output_new_line_marker_of args text) hnsw text initState
    have hdnil : d = [] := by
      rw [hSc] at hd
      simpa [initState] using hd.symm
    rw [hout, hod hdnil]
    simp [initState]

/-- C10 witness: the identity theorem applied to the text `"ab"` with
the no-op options, where no change is recorded. -/
theorem empty_changes_means_identity_witness :
    (format_file_content ("ab".toList) noOpArgs).1 = "ab".toList :=
  empty_changes_means_identity ("ab".toList) noOpArgs (by decide) (by decide)

end WhitespaceFormat

